import Mathlib

/-!
Verification of the DropBot real-time stem audio engine
(`app/sounddevice_audio_engine.py`, class `RealTimeStemAudioEngine`).

Shallow embedding: an audio buffer is a list of stereo frames, a frame is a
pair of rational sample values (the Python code uses float32 numpy arrays;
we model the arithmetic exactly over ℚ).  Each Python method becomes a pure
Lean function over explicit arguments mirroring the instance attributes it
reads and writes.
-/

namespace DropBot

/-- One stereo sample frame (left, right).  The code stores stems as
`(samples, 2)` float arrays; a row of such an array is a `Frame`. -/
abbrev Frame := ℚ × ℚ

/-- The zero frame, as produced by `outdata.fill(0)` / `np.zeros`. -/
def zeroFrame : Frame := (0, 0)

/-- An all-zero block of `n` frames (`outdata` right after `outdata.fill(0)`). -/
def zeroBlock (n : ℕ) : List Frame := List.replicate n zeroFrame

/-- The four fixed stem identifiers used by the engine. -/
inductive StemName
  | vocals
  | drums
  | bass
  | other
deriving DecidableEq, Repr

/-- `stem_names = ["vocals", "drums", "bass", "other"]` in `load_song_stems`. -/
def stem_names : List StemName := [.vocals, .drums, .bass, .other]

/-- `np.clip(x, -0.95, 0.95)` on a single sample value. -/
def clampQ (x : ℚ) : ℚ := min (max x (-(95/100))) (95/100)

/-- `np.clip` applied to one stereo frame. -/
def clampFrame (f : Frame) : Frame := (clampQ f.1, clampQ f.2)

/-- `outdata[:len(chunk)] += chunk`: add the chunk elementwise into the
front of the block, leaving the rest of the block unchanged. -/
def addInto : List Frame → List Frame → List Frame
  | block, [] => block
  | [], _ => []
  | b :: bs, c :: cs => (b + c) :: addInto bs cs

/-- `audio[current_pos : current_pos + to_copy]` (numpy slice with
non-negative in-range start). -/
def sliceAt (audio : List Frame) (pos n : ℕ) : List Frame :=
  (audio.drop pos).take n

/-- `chunk * volume`: scale every frame of a chunk by a stem volume. -/
def scaleChunk (vol : ℚ) (chunk : List Frame) : List Frame :=
  chunk.map fun f => vol • f

/-- One iteration of the mixing loop in `audio_callback`:
```
volume = self.volumes.get(stem_name, 1.0)
if volume > 0.001 and len(audio) > current_pos:
    available = len(audio) - current_pos
    to_copy = min(frames, available)
    if to_copy > 0:
        chunk = audio[current_pos:current_pos + to_copy] * volume
        outdata[:to_copy] += chunk
```
-/
def mixStem (block : List Frame) (audio : List Frame) (vol : ℚ)
    (pos frames : ℕ) : List Frame :=
  if vol > 1/1000 ∧ pos < audio.length then
    let available := audio.length - pos
    let to_copy := min frames available
    if 0 < to_copy then addInto block (scaleChunk vol (sliceAt audio pos to_copy))
    else block
  else block

/-- The whole mixing loop of `audio_callback`, starting from the zeroed
output buffer and folding every stem of `processed_stems` in. -/
def mixStems (stems : List (StemName × List Frame)) (volumes : StemName → ℚ)
    (pos frames : ℕ) : List Frame :=
  stems.foldl (fun block p => mixStem block p.2 (volumes p.1) pos frames)
    (zeroBlock frames)

/-- `outdata *= self.master_volume`. -/
def applyMaster (master : ℚ) (block : List Frame) : List Frame :=
  block.map fun f => master • f

/-- `np.clip(outdata, -0.95, 0.95, out=outdata)`. -/
def clipBlock (block : List Frame) : List Frame :=
  block.map clampFrame

/-- `max(len(audio) for audio in stems.values())` for a non-empty stem map
(`0` when the map is empty, a case the code guards against). -/
def maxStemLen (stems : List (StemName × List Frame)) : ℕ :=
  stems.foldl (fun m p => max m p.2.length) 0

/-- The body of the `try:` block of `audio_callback` (mix, master volume,
soft clip, position advance, loop wrap), returning the produced output
block together with the new `current_position`. -/
def callback_try (stems : List (StemName × List Frame)) (volumes : StemName → ℚ)
    (master : ℚ) (pos frames : ℕ) : List Frame × ℕ :=
  let out := clipBlock (applyMaster master (mixStems stems volumes pos frames))
  let advanced := pos + frames
  let newPos := if stems ≠ [] ∧ maxStemLen stems ≤ advanced then 0 else advanced
  (out, newPos)

/-- `audio_callback(outdata, frames, time, status)`:
clears the output, early-returns silence when not playing or when no stems
are loaded, and otherwise runs the mixing body. -/
def audio_callback (is_playing : Bool) (stems : List (StemName × List Frame))
    (volumes : StemName → ℚ) (master : ℚ) (pos frames : ℕ) : List Frame × ℕ :=
  if ¬ is_playing ∨ stems = [] then (zeroBlock frames, pos)
  else callback_try stems volumes master pos frames

/-- `audio_callback` with the `try/except` made explicit: the attempted
mixing body is passed in as an `Except` value; when it raises
(`.error ()`), the handler runs `outdata.fill(0)`, producing a silent block
and leaving the position at its pre-callback value. -/
def audio_callback_with_fault (attempt : Except Unit (List Frame × ℕ))
    (is_playing : Bool) (stems : List (StemName × List Frame))
    (pos frames : ℕ) : List Frame × ℕ :=
  if ¬ is_playing ∨ stems = [] then (zeroBlock frames, pos)
  else
    match attempt with
    | .ok r => r
    | .error _ => (zeroBlock frames, pos)

/-! ### Loading (`load_song_stems`) -/

/-- What `librosa.load` yields for one stem file, mirroring the numpy array
shapes the code inspects: a missing file, a decode failure (the inner
`except` branch), a mono array of shape `(n,)`, or a stereo array of shape
`(2, n)` given as a list of frames. -/
inductive StemFile
  | missing
  | decodeError
  | mono (samples : List ℚ)
  | stereo (frames : List Frame)
deriving Repr

/-- The per-stem part of the loading loop: `none` means the stem is skipped
(missing file, decode error, or an empty decode caught by
`len(audio) == 0` — for a mono array `len` is the sample count); otherwise
the decoded audio normalized to a `(samples, 2)` frame list, a mono source
being duplicated onto both channels by `np.stack([audio, audio])`. -/
def load_stem : StemFile → Option (List Frame)
  | .missing => none
  | .decodeError => none
  | .mono s => if s.length = 0 then none else some (s.map fun x => (x, x))
  | .stereo f => some f

/-- The `loaded_stems` dict after the loading loop: the stems of
`stem_names`, in order, whose files loaded successfully. -/
def loadedList (fs : StemName → StemFile) : List (StemName × List Frame) :=
  stem_names.filterMap fun n => (load_stem (fs n)).map fun a => (n, a)

/-- The padding step:
```
if current_length < max_length:
    padding = np.zeros((max_length - current_length, 2), dtype=np.float32)
    loaded_stems[stem_name] = np.vstack([loaded_stems[stem_name], padding])
```
-/
def padTo (m : ℕ) (a : List Frame) : List Frame :=
  if a.length < m then a ++ List.replicate (m - a.length) zeroFrame else a

/-- `load_song_stems`, from the point where the stem folder exists: load
each of the four stems (skipping failures), raise
`ValueError("No stems were successfully loaded")` when none loaded, and
otherwise pad every loaded stem to the maximum loaded length. -/
def load_song_stems (fs : StemName → StemFile) :
    Except String (List (StemName × List Frame)) :=
  let loaded := loadedList fs
  if loaded = [] then .error "No stems were successfully loaded"
  else
    let max_length := maxStemLen loaded
    .ok (loaded.map fun p => (p.1, padTo max_length p.2))

/-! ### Effects (`apply_effects_to_stems`) -/

/-- `apply_effects_to_stems(speed, pitch_shift)` over the original stems.
The numeric DSP is delegated to `librosa.effects.pitch_shift` and
`librosa.effects.time_stretch`, modelled as the abstract collaborator
functions `pitchFn` and `stretchFn`; a transform is applied only when its
parameter is not the identity (`pitch_shift != 0`, `speed != 1.0`).
Returns the new `processed_stems` together with the reset
`current_position` (`0`). -/
def apply_effects_to_stems (pitchFn : ℤ → List Frame → List Frame)
    (stretchFn : ℚ → List Frame → List Frame) (speed : ℚ) (pitch : ℤ)
    (original : List (StemName × List Frame)) :
    List (StemName × List Frame) × ℤ :=
  (original.map fun p =>
    let a := p.2
    let a := if pitch ≠ 0 then pitchFn pitch a else a
    let a := if speed ≠ 1 then stretchFn speed a else a
    (p.1, a), 0)

/-! ### Transport (`start_playback`, `set_position_seconds`) -/

/-- The transport-related attributes of the engine: `is_playing` and the
`stream` handle (`None` when no stream is open). -/
structure TransportState where
  is_playing : Bool
  stream : Option ℕ
deriving DecidableEq, Repr

/-- `start_playback`: no-op when already playing; otherwise open an output
stream (the `sd.OutputStream(...)` construction, whose outcome is the
`openResult` argument — `.error ()` models the device being unavailable)
and start it.  The surrounding `try/except` catches any failure and only
prints it, so the embedded function never returns `.error`. -/
def start_playback (openResult : Except Unit ℕ) (st : TransportState) :
    Except Unit TransportState :=
  if st.is_playing then .ok st
  else
    match openResult with
    | .ok h => .ok { is_playing := true, stream := some h }
    | .error _ => .ok st

/-- Python `int(q)`: truncation toward zero. -/
def py_int (q : ℚ) : ℤ := if 0 ≤ q then ⌊q⌋ else -⌊-q⌋

/-- `set_position_seconds(seconds)`: convert to frames with `int(...)`;
clamp into `[0, max_length - 1]` only when some stems are loaded; return
the assigned `current_position`. -/
def set_position_seconds (stems : List (StemName × List Frame))
    (sample_rate : ℕ) (seconds : ℚ) : ℤ :=
  let new_position := py_int (seconds * (sample_rate : ℚ))
  if stems = [] then new_position
  else max 0 (min new_position ((maxStemLen stems : ℤ) - 1))

/-! ### Specification-side mixing formula -/

/-- The contribution of one stem to output index `i` of a block of `frames`
frames mixed from position `pos`: `volume * audio[pos + i]` when the stem
passes the volume gate, has data at `pos`, and `i` falls inside the copied
region `min frames (length - pos)`; the zero frame otherwise. -/
def contribution (audio : List Frame) (vol : ℚ) (pos frames i : ℕ) : Frame :=
  if vol > 1/1000 ∧ pos < audio.length ∧ i < min frames (audio.length - pos)
  then vol • audio.getD (pos + i) zeroFrame else zeroFrame

/-! ### Concrete inputs used in witnesses, scenarios and counterexamples -/

/-- A constant half-amplitude stereo frame. -/
def halfFrame : Frame := (1/2, 1/2)

/-- Two stems, each one frame of constant value `0.5` (the §8 scenario of
the spec). -/
def scenarioStems : List (StemName × List Frame) :=
  [(.vocals, [halfFrame]), (.drums, [halfFrame])]

/-- A small two-stem set used to instantiate universally quantified
theorems. -/
def demoStems : List (StemName × List Frame) :=
  [(.vocals, [(1, 1), (1, 1)]), (.drums, [(2, 2)])]

/-- All stem volumes at `1.0`. -/
def unitVols : StemName → ℚ := fun _ => 1

/-- A four-stem filesystem for the loading witness: two stereo stems of
lengths 1 and 2, one missing stem, one empty (mono, zero samples) stem. -/
def wFs : StemName → StemFile
  | .vocals => .stereo [(1, 1)]
  | .drums => .stereo [(2, 2), (3, 3)]
  | .bass => .missing
  | .other => .mono []

/-- The StemSet produced by loading `wFs`. -/
def wRes : List (StemName × List Frame) :=
  [(.vocals, [(1, 1), (0, 0)]), (.drums, [(2, 2), (3, 3)])]

/-- A filesystem whose drums file decodes to a zero-frame stereo array
(numpy shape `(2, 0)`, so `len(audio)` is 2, not 0): one normal one-frame
vocals stem, the empty-stereo drums stem, the rest missing. -/
def c7Fs : StemName → StemFile
  | .vocals => .stereo [(1, 1)]
  | .drums => .stereo []
  | .bass => .missing
  | .other => .missing

/-- The StemSet produced by loading `c7Fs`: the zero-sample drums stem is
not skipped — it is loaded and padded to one silent frame. -/
def c7Res : List (StemName × List Frame) :=
  [(.vocals, [(1, 1)]), (.drums, [(0, 0)])]

/-- The §8 loading scenario: `vocals` 100 000 frames, `drums` 90 000
frames, `bass` missing, `other` 100 000 frames. -/
def scenarioFs : StemName → StemFile
  | .vocals => .stereo (List.replicate 100000 zeroFrame)
  | .drums => .stereo (List.replicate 90000 zeroFrame)
  | .bass => .missing
  | .other => .stereo (List.replicate 100000 zeroFrame)

/-- The StemSet produced by loading `scenarioFs`. -/
def scenarioRes : List (StemName × List Frame) :=
  [(.vocals, List.replicate 100000 zeroFrame),
   (.drums, List.replicate 90000 zeroFrame ++ List.replicate 10000 zeroFrame),
   (.other, List.replicate 100000 zeroFrame)]

/-- A pitch-shift collaborator for the effects counterexample: identity. -/
def cxPitch : ℤ → List Frame → List Frame := fun _ a => a

/-- A time-stretch collaborator for the effects counterexample: stretches
the vocals content to two frames and leaves anything else alone (the DSP
collaborator's output length is not guaranteed equal across stems). -/
def cxStretch : ℚ → List Frame → List Frame :=
  fun _ a => if a = [(1, 1)] then [(1, 1), (1, 1)] else a

/-- An original stem set for the effects counterexample: two stems of the
same length 1. -/
def cxOrig : List (StemName × List Frame) :=
  [(.vocals, [(1, 1)]), (.drums, [(0, 0)])]

/-! ### Basic lemmas -/

lemma zeroFrame_eq : zeroFrame = 0 := rfl

lemma zeroBlock_length (n : ℕ) : (zeroBlock n).length = n := by
  simp [zeroBlock]

lemma zeroBlock_getD (n i : ℕ) : (zeroBlock n).getD i zeroFrame = zeroFrame := by
  unfold zeroBlock
  rcases lt_or_le i n with h | h
  · rw [List.getD_eq_getElem?_getD, List.getElem?_replicate]
    simp [h]
  · rw [List.getD_eq_getElem?_getD, List.getElem?_eq_none (by simpa using h)]
    rfl

lemma addInto_length (b c : List Frame) : (addInto b c).length = b.length := by
  induction b generalizing c with
  | nil => cases c <;> rfl
  | cons x xs ih =>
    cases c with
    | nil => rfl
    | cons y ys => simp [addInto, ih]

lemma addInto_getD (b c : List Frame) (h : c.length ≤ b.length) (i : ℕ) :
    (addInto b c).getD i zeroFrame = b.getD i zeroFrame + c.getD i zeroFrame := by
  induction b generalizing c i with
  | nil =>
    have hc : c = [] := List.eq_nil_of_length_eq_zero (Nat.le_zero.mp (by simpa using h))
    subst hc
    simp [addInto, zeroFrame_eq]
  | cons x xs ih =>
    cases c with
    | nil => simp [addInto, zeroFrame_eq]
    | cons y ys =>
      cases i with
      | zero => simp [addInto]
      | succ j => simpa [addInto] using ih ys (by simpa using h) j

lemma getD_map (f : Frame → Frame) (l : List Frame) (i : ℕ) (h : i < l.length) :
    (l.map f).getD i zeroFrame = f (l.getD i zeroFrame) := by
  rw [List.getD_eq_getElem?_getD, List.getElem?_map,
    List.getElem?_eq_getElem h, List.getD_eq_getElem?_getD,
    List.getElem?_eq_getElem h]
  rfl

lemma scaleChunk_length (vol : ℚ) (l : List Frame) :
    (scaleChunk vol l).length = l.length := by
  simp [scaleChunk]

lemma sliceAt_length (audio : List Frame) (pos n : ℕ) :
    (sliceAt audio pos n).length = min n (audio.length - pos) := by
  simp [sliceAt]

lemma sliceAt_getD (audio : List Frame) (pos n i : ℕ) (h : i < n) :
    (sliceAt audio pos n).getD i zeroFrame = audio.getD (pos + i) zeroFrame := by
  unfold sliceAt
  rw [List.getD_eq_getElem?_getD, List.getElem?_take, if_pos h,
    List.getElem?_drop, List.getD_eq_getElem?_getD]

lemma scaleChunk_getD (vol : ℚ) (l : List Frame) (i : ℕ) :
    (scaleChunk vol l).getD i zeroFrame =
      if i < l.length then vol • l.getD i zeroFrame else zeroFrame := by
  rcases lt_or_le i l.length with h | h
  · rw [if_pos h]
    exact getD_map (fun f => vol • f) l i h
  · rw [if_neg (not_lt.mpr h), List.getD_eq_getElem?_getD,
      List.getElem?_eq_none (by simpa [scaleChunk] using h)]
    rfl

lemma mixStem_length (block audio : List Frame) (vol : ℚ) (pos frames : ℕ) :
    (mixStem block audio vol pos frames).length = block.length := by
  simp only [mixStem]
  split_ifs <;> simp [addInto_length]

lemma mixStem_getD (block audio : List Frame) (vol : ℚ) (pos frames i : ℕ)
    (hlen : block.length = frames) (hi : i < frames) :
    (mixStem block audio vol pos frames).getD i zeroFrame
      = block.getD i zeroFrame + contribution audio vol pos frames i := by
  unfold mixStem contribution
  by_cases hc : vol > 1/1000 ∧ pos < audio.length
  · rw [if_pos hc]
    have havail : 0 < audio.length - pos := Nat.sub_pos_of_lt hc.2
    have hcopy : 0 < min frames (audio.length - pos) :=
      lt_min (Nat.zero_lt_of_lt hi) havail
    rw [if_pos hcopy]
    have hchunklen : (scaleChunk vol (sliceAt audio pos (min frames (audio.length - pos)))).length
        ≤ block.length := by
      rw [scaleChunk_length, sliceAt_length, hlen]
      exact le_trans (min_le_left _ _) (min_le_left _ _)
    rw [addInto_getD _ _ hchunklen i, scaleChunk_getD, sliceAt_length]
    by_cases hin : i < min frames (audio.length - pos)
    · have hmin : min (min frames (audio.length - pos)) (audio.length - pos)
          = min frames (audio.length - pos) := by
        rw [min_eq_left (min_le_right _ _)]
      rw [hmin, if_pos hin, sliceAt_getD audio pos _ i hin,
        if_pos ⟨hc.1, hc.2, hin⟩]
    · have hmin : min (min frames (audio.length - pos)) (audio.length - pos)
          = min frames (audio.length - pos) := by
        rw [min_eq_left (min_le_right _ _)]
      rw [hmin, if_neg hin, if_neg]
      intro h
      exact hin h.2.2
  · rw [if_neg hc, if_neg, zeroFrame_eq, add_zero]
    intro h
    exact hc ⟨h.1, h.2.1⟩

lemma mixStems_go_getD (volumes : StemName → ℚ) (pos frames : ℕ)
    (stems : List (StemName × List Frame)) :
    ∀ (block : List Frame), block.length = frames → ∀ i, i < frames →
    (stems.foldl (fun b p => mixStem b p.2 (volumes p.1) pos frames) block).getD i zeroFrame
      = block.getD i zeroFrame
        + (stems.map fun p => contribution p.2 (volumes p.1) pos frames i).sum := by
  induction stems with
  | nil => intro block _ i _; simp [zeroFrame_eq]
  | cons p rest ih =>
    intro block hlen i hi
    have hlen2 : (mixStem block p.2 (volumes p.1) pos frames).length = frames := by
      rw [mixStem_length, hlen]
    rw [List.foldl_cons, ih _ hlen2 i hi, mixStem_getD _ _ _ _ _ _ hlen hi,
      List.map_cons, List.sum_cons, add_assoc]

lemma mixStems_length (stems : List (StemName × List Frame))
    (volumes : StemName → ℚ) (pos frames : ℕ) :
    (mixStems stems volumes pos frames).length = frames := by
  unfold mixStems
  suffices h : ∀ (block : List Frame),
      (stems.foldl (fun b p => mixStem b p.2 (volumes p.1) pos frames) block).length
        = block.length by
    rw [h, zeroBlock_length]
  induction stems with
  | nil => intro block; rfl
  | cons p rest ih =>
    intro block
    rw [List.foldl_cons, ih, mixStem_length]

/-- Pointwise characterization of the mixing loop: sample `i` of the mixed
(pre-master, pre-clip) block is the sum over all stems of their
contributions. -/
lemma mixStems_getD (stems : List (StemName × List Frame))
    (volumes : StemName → ℚ) (pos frames i : ℕ) (hi : i < frames) :
    (mixStems stems volumes pos frames).getD i zeroFrame
      = (stems.map fun p => contribution p.2 (volumes p.1) pos frames i).sum := by
  unfold mixStems
  rw [mixStems_go_getD volumes pos frames stems (zeroBlock frames)
    (zeroBlock_length frames) i hi, zeroBlock_getD, zeroFrame_eq, zero_add]

lemma foldl_max_init_le (stems : List (StemName × List Frame)) (a : ℕ) :
    a ≤ stems.foldl (fun m p => max m p.2.length) a := by
  induction stems generalizing a with
  | nil => exact le_refl a
  | cons p rest ih => exact le_trans (le_max_left a p.2.length) (ih _)

lemma le_maxStemLen (stems : List (StemName × List Frame))
    (p : StemName × List Frame) (hp : p ∈ stems) :
    p.2.length ≤ maxStemLen stems := by
  unfold maxStemLen
  generalize (0 : ℕ) = a
  induction stems generalizing a with
  | nil => cases hp
  | cons q rest ih =>
    rcases List.mem_cons.mp hp with h | h
    · subst h
      exact le_trans (le_max_right a p.2.length) (foldl_max_init_le rest _)
    · exact ih h _

lemma clampQ_le (x : ℚ) : clampQ x ≤ 95/100 := min_le_right _ _

lemma neg_le_clampQ (x : ℚ) : -(95/100) ≤ clampQ x :=
  le_min (le_max_right _ _) (by norm_num)

lemma clampQ_zero : clampQ 0 = 0 := by
  unfold clampQ
  rw [max_eq_left (by norm_num), min_eq_left (by norm_num)]

lemma clampFrame_zero : clampFrame 0 = 0 := by
  unfold clampFrame
  rw [Prod.fst_zero, Prod.snd_zero, clampQ_zero]
  rfl

lemma padTo_length (m : ℕ) (a : List Frame) (h : a.length ≤ m) :
    (padTo m a).length = m := by
  unfold padTo
  split_ifs with hlt
  · simp; omega
  · omega

lemma padTo_eq_append (m : ℕ) (a : List Frame) (h : a.length ≤ m) :
    padTo m a = a ++ List.replicate (m - a.length) zeroFrame := by
  unfold padTo
  split_ifs with hlt
  · rfl
  · have : m - a.length = 0 := by omega
    rw [this, List.replicate_zero, List.append_nil]

lemma audio_callback_length (is_playing : Bool)
    (stems : List (StemName × List Frame)) (volumes : StemName → ℚ)
    (master : ℚ) (pos frames : ℕ) :
    (audio_callback is_playing stems volumes master pos frames).1.length = frames := by
  unfold audio_callback callback_try
  split
  · exact zeroBlock_length frames
  · simp only [clipBlock, applyMaster, List.length_map]
    exact mixStems_length _ _ _ _

lemma audio_callback_getD (stems : List (StemName × List Frame))
    (volumes : StemName → ℚ) (master : ℚ) (pos frames i : ℕ)
    (hstems : stems ≠ []) (hi : i < frames) :
    (audio_callback true stems volumes master pos frames).1.getD i zeroFrame
      = clampFrame (master •
          (stems.map fun p => contribution p.2 (volumes p.1) pos frames i).sum) := by
  unfold audio_callback callback_try
  rw [if_neg (by simp [hstems])]
  simp only [clipBlock, applyMaster]
  have hlen : (mixStems stems volumes pos frames).length = frames :=
    mixStems_length stems volumes pos frames
  rw [getD_map _ _ i (by simp [hlen, hi]),
    getD_map _ _ i (by rw [hlen]; exact hi),
    mixStems_getD stems volumes pos frames i hi]

lemma padTo_replicate_self (n : ℕ) (x : Frame) :
    padTo n (List.replicate n x) = List.replicate n x := by
  unfold padTo
  rw [List.length_replicate, if_neg (lt_irrefl n)]

lemma padTo_replicate_lt (n m : ℕ) (h : m < n) :
    padTo n (List.replicate m zeroFrame)
      = List.replicate m zeroFrame ++ List.replicate (n - m) zeroFrame := by
  unfold padTo
  rw [List.length_replicate, if_pos h]

lemma scenario_loaded : loadedList scenarioFs
    = [(.vocals, List.replicate 100000 zeroFrame),
       (.drums, List.replicate 90000 zeroFrame),
       (.other, List.replicate 100000 zeroFrame)] := rfl

lemma scenario_load : load_song_stems scenarioFs = .ok scenarioRes := by
  simp only [load_song_stems, scenario_loaded]
  rw [if_neg (List.cons_ne_nil _ _)]
  have hmax : maxStemLen
      [((StemName.vocals : StemName), List.replicate 100000 zeroFrame),
       (.drums, List.replicate 90000 zeroFrame),
       (.other, List.replicate 100000 zeroFrame)] = 100000 := by
    simp only [maxStemLen, List.foldl_cons, List.foldl_nil, List.length_replicate]
    omega
  rw [hmax]
  simp only [List.map_cons, List.map_nil]
  rw [padTo_replicate_self,
    padTo_replicate_lt 100000 90000 (by norm_num),
    show (100000 : ℕ) - 90000 = 10000 from by norm_num]
  rfl

lemma cx_result : (apply_effects_to_stems cxPitch cxStretch 2 0 cxOrig).1
    = [(.vocals, [(1, 1), (1, 1)]), (.drums, [(0, 0)])] := by
  decide

/-! ### Claim theorems -/

/-- C1: On every audio callback with requested frame count `frames`, when
playing with a non-empty stem set, the engine zeroes the output block and,
for every stem whose volume exceeds `0.001` and whose length exceeds the
current position, adds `min frames (length - position)` frames starting at
the position, scaled by the stem's volume, into the output (summing, not
replacing), and finally scales the whole summed block by the master
volume (the code then also soft-clips it); if not playing or no stem set
is loaded the block is left all zero.  Formally: (1) the silent early
exit; (2) the mixed block is, pointwise, the sum of the per-stem
contributions; (3) the produced block is the mixed block scaled by the
master volume (and clamped). -/
theorem claim_C1_callback_mixing :
    (∀ (is_playing : Bool) (stems : List (StemName × List Frame))
      (volumes : StemName → ℚ) (master : ℚ) (pos frames : ℕ),
      (is_playing = false ∨ stems = []) →
      (audio_callback is_playing stems volumes master pos frames).1
        = zeroBlock frames)
    ∧ (∀ (stems : List (StemName × List Frame)) (volumes : StemName → ℚ)
      (pos frames i : ℕ), i < frames →
      (mixStems stems volumes pos frames).getD i zeroFrame
        = (stems.map fun p => contribution p.2 (volumes p.1) pos frames i).sum)
    ∧ (∀ (stems : List (StemName × List Frame)) (volumes : StemName → ℚ)
      (master : ℚ) (pos frames : ℕ), stems ≠ [] →
      (audio_callback true stems volumes master pos frames).1
        = (mixStems stems volumes pos frames).map
            fun f => clampFrame (master • f)) := by
  refine ⟨?_, ?_, ?_⟩
  · intro is_playing stems volumes master pos frames h
    unfold audio_callback
    rw [if_pos]
    rcases h with h | h
    · left; simp [h]
    · right; exact h
  · intro stems volumes pos frames i hi
    exact mixStems_getD stems volumes pos frames i hi
  · intro stems volumes master pos frames h
    unfold audio_callback callback_try
    rw [if_neg (by simp [h])]
    simp [clipBlock, applyMaster, List.map_map, Function.comp]

/-- Witness for C1 at concrete inputs. -/
theorem claim_C1_witness :
    ((audio_callback false demoStems unitVols 1 0 2).1 = zeroBlock 2)
    ∧ ((mixStems demoStems unitVols 0 2).getD 0 zeroFrame
        = (demoStems.map fun p => contribution p.2 (unitVols p.1) 0 2 0).sum)
    ∧ ((audio_callback true demoStems unitVols (3/2) 0 2).1
        = (mixStems demoStems unitVols 0 2).map
            fun f => clampFrame ((3/2 : ℚ) • f)) :=
  ⟨claim_C1_callback_mixing.1 false demoStems unitVols 1 0 2 (Or.inl rfl),
   claim_C1_callback_mixing.2.1 demoStems unitVols 0 2 0 (by norm_num),
   claim_C1_callback_mixing.2.2 demoStems unitVols (3/2) 0 2 (by simp [demoStems])⟩

/-- C2: every sample of every produced output block lies in the safety
range `[-0.95, 0.95]`, and in the §8 scenario (master volume `1.5`, two
stems at volume `1.0` each contributing a constant `0.5` sample) the
produced output sample is exactly `0.95`. -/
theorem claim_C2_soft_limit :
    (∀ (is_playing : Bool) (stems : List (StemName × List Frame))
      (volumes : StemName → ℚ) (master : ℚ) (pos frames : ℕ) (f : Frame),
      f ∈ (audio_callback is_playing stems volumes master pos frames).1 →
      -(95/100) ≤ f.1 ∧ f.1 ≤ 95/100 ∧ -(95/100) ≤ f.2 ∧ f.2 ≤ 95/100)
    ∧ (audio_callback true scenarioStems unitVols (3/2) 0 1).1
        = [((19 : ℚ)/20, (19 : ℚ)/20)] := by
  constructor
  · intro is_playing stems volumes master pos frames f hf
    unfold audio_callback callback_try at hf
    split at hf
    · have : f = zeroFrame := List.eq_of_mem_replicate hf
      subst this
      norm_num [zeroFrame]
    · simp only [clipBlock, List.mem_map] at hf
      obtain ⟨g, -, hg⟩ := hf
      subst hg
      exact ⟨neg_le_clampQ _, clampQ_le _, neg_le_clampQ _, clampQ_le _⟩
  · simp only [audio_callback, callback_try, mixStems, mixStem, clipBlock,
      applyMaster, addInto, scaleChunk, sliceAt, zeroBlock, zeroFrame, clampQ,
      clampFrame, maxStemLen, scenarioStems, unitVols, halfFrame, List.foldl,
      List.map, List.drop, List.take, List.replicate, Function.comp,
      List.cons_ne_nil, if_false, reduceCtorEq, ite_false]
    norm_num [addInto, clampFrame, clampQ, Prod.smul_mk, smul_eq_mul, min_def,
      max_def, Prod.ext_iff]

/-- Witness for C2: the scenario's output sample is a member of a produced
block, and the range bound holds of it. -/
theorem claim_C2_witness :
    ((19 : ℚ)/20, (19 : ℚ)/20) ∈ (audio_callback true scenarioStems unitVols (3/2) 0 1).1
    ∧ (-(95/100) ≤ ((19 : ℚ)/20, (19 : ℚ)/20).1
        ∧ ((19 : ℚ)/20, (19 : ℚ)/20).1 ≤ 95/100
        ∧ -(95/100) ≤ ((19 : ℚ)/20, (19 : ℚ)/20).2
        ∧ ((19 : ℚ)/20, (19 : ℚ)/20).2 ≤ 95/100) := by
  have hmem : ((19 : ℚ)/20, (19 : ℚ)/20)
      ∈ (audio_callback true scenarioStems unitVols (3/2) 0 1).1 := by
    rw [claim_C2_soft_limit.2]
    exact List.mem_singleton.mpr rfl
  exact ⟨hmem,
    claim_C2_soft_limit.1 true scenarioStems unitVols (3/2) 0 1 _ hmem⟩

/-- C4: while playing with a non-empty stem set, the position advances by
exactly `frames` per callback and wraps to 0 exactly when the advanced
position reaches or exceeds the stem set's frame count; the wrap happens
only after the block is produced, so the part of a block lying past the
end of the stem set is silence (zero frames), never wrapped data. -/
theorem claim_C4_position_advance :
    ∀ (stems : List (StemName × List Frame)) (volumes : StemName → ℚ)
      (master : ℚ) (pos frames : ℕ), stems ≠ [] →
      ((maxStemLen stems ≤ pos + frames →
        (audio_callback true stems volumes master pos frames).2 = 0)
      ∧ (pos + frames < maxStemLen stems →
        (audio_callback true stems volumes master pos frames).2 = pos + frames)
      ∧ (∀ i, i < frames → maxStemLen stems ≤ pos + i →
        (audio_callback true stems volumes master pos frames).1.getD i zeroFrame
          = zeroFrame)) := by
  intro stems volumes master pos frames hstems
  refine ⟨?_, ?_, ?_⟩
  · intro hwrap
    unfold audio_callback callback_try
    rw [if_neg (by simp [hstems])]
    simp [hstems, hwrap]
  · intro hlt
    unfold audio_callback callback_try
    rw [if_neg (by simp [hstems])]
    simp [hstems, not_le.mpr hlt]
  · intro i hi hpast
    rw [audio_callback_getD stems volumes master pos frames i hstems hi]
    have hzero : (stems.map fun p => contribution p.2 (volumes p.1) pos frames i).sum
        = (0 : Frame) := by
      apply List.sum_eq_zero
      intro x hx
      obtain ⟨p, hp, hpx⟩ := List.mem_map.mp hx
      subst hpx
      unfold contribution
      rw [if_neg]
      · exact zeroFrame_eq
      · rintro ⟨-, hpos, hin⟩
        have hle : p.2.length ≤ maxStemLen stems := le_maxStemLen stems p hp
        have : i < p.2.length - pos := lt_of_lt_of_le hin (min_le_right _ _)
        omega
    rw [hzero, smul_zero, clampFrame_zero, zeroFrame_eq]

/-- Witness for C4 at concrete inputs: a block of 2 frames straddling the
end of a 1-frame song wraps to 0 and pads index 1 with silence. -/
theorem claim_C4_witness :
    ((maxStemLen scenarioStems ≤ 0 + 2 →
      (audio_callback true scenarioStems unitVols 1 0 2).2 = 0)
    ∧ (0 + 2 < maxStemLen scenarioStems →
      (audio_callback true scenarioStems unitVols 1 0 2).2 = 0 + 2)
    ∧ (∀ i, i < 2 → maxStemLen scenarioStems ≤ 0 + i →
      (audio_callback true scenarioStems unitVols 1 0 2).1.getD i zeroFrame
        = zeroFrame)) :=
  claim_C4_position_advance scenarioStems unitVols 1 0 2 (by simp [scenarioStems])

/-- C6: with the callback's `try/except` made explicit, a mixing body that
raises is converted to an all-zero output block for that invocation, and a
body that does not raise produces exactly the normal callback result — the
embedded callback is a total function, so no exception ever reaches the
driving stream. -/
theorem claim_C6_fault_containment :
    (∀ (is_playing : Bool) (stems : List (StemName × List Frame))
      (pos frames : ℕ),
      (audio_callback_with_fault (.error ()) is_playing stems pos frames).1
        = zeroBlock frames)
    ∧ (∀ (is_playing : Bool) (stems : List (StemName × List Frame))
      (volumes : StemName → ℚ) (master : ℚ) (pos frames : ℕ),
      audio_callback_with_fault (.ok (callback_try stems volumes master pos frames))
          is_playing stems pos frames
        = audio_callback is_playing stems volumes master pos frames) := by
  constructor
  · intro is_playing stems pos frames
    unfold audio_callback_with_fault
    split <;> rfl
  · intro is_playing stems volumes master pos frames
    unfold audio_callback_with_fault audio_callback
    split <;> rfl

/-- C3: for every successful load, every stem in the resulting stem set
has the same frame count, equal to the maximum length among the loaded
stems, with each shorter stem's tail zero-padded up to that length. -/
theorem claim_C3_padding_invariant :
    ∀ (fs : StemName → StemFile) (res : List (StemName × List Frame)),
      load_song_stems fs = .ok res →
      ((∀ p, p ∈ res → p.2.length = maxStemLen (loadedList fs))
      ∧ (∀ p, p ∈ res → ∃ a, (p.1, a) ∈ loadedList fs
          ∧ p.2 = a ++ List.replicate
              (maxStemLen (loadedList fs) - a.length) zeroFrame)) := by
  intro fs res h
  simp only [load_song_stems] at h
  split at h
  · exact absurd h (by simp)
  · rw [Except.ok.injEq] at h
    subst h
    constructor
    · intro p hp
      obtain ⟨q, hq, hqp⟩ := List.mem_map.mp hp
      subst hqp
      exact padTo_length _ _ (le_maxStemLen _ q hq)
    · intro p hp
      obtain ⟨q, hq, hqp⟩ := List.mem_map.mp hp
      subst hqp
      exact ⟨q.2, by simpa using hq,
        padTo_eq_append _ _ (le_maxStemLen _ q hq)⟩

/-- Witness for C3 at the concrete four-file input `wFs` (stems of lengths
1 and 2, one missing, one empty): the padded vocals stem has the common
length and is its loaded content plus a zero tail. -/
theorem claim_C3_witness :
    ((StemName.vocals, ([(1, 1), (0, 0)] : List Frame)).2.length
        = maxStemLen (loadedList wFs))
    ∧ (∃ a, ((StemName.vocals, ([(1, 1), (0, 0)] : List Frame)).1, a) ∈ loadedList wFs
        ∧ (StemName.vocals, ([(1, 1), (0, 0)] : List Frame)).2
            = a ++ List.replicate
                (maxStemLen (loadedList wFs) - a.length) zeroFrame) := by
  have hload : load_song_stems wFs = .ok wRes := by rfl
  have hmem : (StemName.vocals, ([(1, 1), (0, 0)] : List Frame)) ∈ wRes :=
    List.mem_cons_self _ _
  exact ⟨(claim_C3_padding_invariant wFs wRes hload).1 _ hmem,
    (claim_C3_padding_invariant wFs wRes hload).2 _ hmem⟩

/-- C7 (amended): a stem that is missing, fails to decode, or decodes to
a zero-sample mono array is skipped (it never appears in a successful
result, and its absence alone does not fail the load) — but a zero-frame
stereo decode passes the code's `len(audio) == 0` check (`len` of a
`(2, n)` array is 2) and is loaded as-is rather than skipped; loading
fails with the "no stems loaded" error if and only if every stem is
skipped; in particular the §8 scenario (vocals 100 000 frames, drums
90 000 frames, bass missing, other 100 000 frames) succeeds with every
stem at 100 000 frames and bass absent. -/
theorem claim_C7_skip_semantics :
    (load_stem .missing = none ∧ load_stem .decodeError = none
      ∧ load_stem (.mono []) = none
      ∧ ∀ f : List Frame, load_stem (.stereo f) = some f)
    ∧ (∀ fs : StemName → StemFile,
        (∃ e, load_song_stems fs = .error e)
          ↔ ∀ n, n ∈ stem_names → load_stem (fs n) = none)
    ∧ (∀ (fs : StemName → StemFile) (res : List (StemName × List Frame))
        (n : StemName) (a : List Frame), load_song_stems fs = .ok res →
        load_stem (fs n) = none → (n, a) ∉ res)
    ∧ (load_song_stems scenarioFs = .ok scenarioRes
        ∧ scenarioRes.map Prod.fst = [StemName.vocals, .drums, .other]
        ∧ ∀ p, p ∈ scenarioRes → p.2.length = 100000) := by
  refine ⟨⟨rfl, rfl, rfl, fun f => rfl⟩, ?_, ?_, scenario_load, rfl, ?_⟩
  · intro fs
    constructor
    · rintro ⟨e, he⟩
      simp only [load_song_stems] at he
      split at he
      · intro n hn
        have := List.filterMap_eq_nil_iff.mp (by assumption)
        exact Option.map_eq_none'.mp (this n hn)
      · exact absurd he (by simp)
    · intro h
      have hnil : loadedList fs = [] :=
        List.filterMap_eq_nil_iff.mpr fun n hn => Option.map_eq_none'.mpr (h n hn)
      exact ⟨"No stems were successfully loaded", by
        simp only [load_song_stems, hnil, if_true, eq_self_iff_true]⟩
  · intro fs res n a hok hnone hmem
    simp only [load_song_stems] at hok
    split at hok
    · exact absurd hok (by simp)
    · rw [Except.ok.injEq] at hok
      subst hok
      obtain ⟨q, hq, hqe⟩ := List.mem_map.mp hmem
      obtain ⟨m, -, hm⟩ := List.mem_filterMap.mp hq
      obtain ⟨b, hb, hbq⟩ := Option.map_eq_some'.mp hm
      have hqn : q.1 = n := congrArg Prod.fst hqe
      rw [← hbq] at hqn
      simp only at hqn
      rw [hqn] at hb
      rw [hb] at hnone
      exact Option.noConfusion hnone
  · intro p hp
    simp only [scenarioRes, List.mem_cons, List.not_mem_nil, or_false] at hp
    rcases hp with h | h | h <;> subst h <;>
      simp only [List.length_replicate, List.length_append]

/-- Witness for C7: in the concrete load of `wFs` (whose bass file is
missing) the bass stem is absent from the successful result. -/
theorem claim_C7_witness :
    (StemName.bass, ([] : List Frame)) ∉ wRes :=
  claim_C7_skip_semantics.2.2.1 wFs wRes .bass [] (by rfl) rfl

/-- C7 counterexample: the drums file of `c7Fs` decodes to zero samples
(a zero-frame stereo array), yet loading succeeds with the drums stem
present in the result (padded to one silent frame) — the zero-sample stem
is not skipped, refuting the claim's universal skip of zero-sample
decodes. -/
theorem claim_C7_counterexample :
    c7Fs .drums = .stereo []
    ∧ load_song_stems c7Fs = .ok c7Res
    ∧ ¬ (∀ a : List Frame, (StemName.drums, a) ∉ c7Res) :=
  ⟨rfl, rfl, fun h =>
    h [(0, 0)] (List.mem_cons_of_mem _ (List.mem_cons_self _ _))⟩

/-- C5 counterexample: with the identity pitch collaborator and a stretch
collaborator that maps the vocals content `[(1,1)]` to two frames and
leaves the drums content alone (the DSP collaborator's output lengths need
not agree), `apply_effects_to_stems 2 0` on two stems of equal length 1
yields stems of lengths 2 and 1 — the result is not re-padded to a common
frame count. -/
theorem claim_C5_counterexample :
    ¬ (∀ p q : StemName × List Frame,
        p ∈ (apply_effects_to_stems cxPitch cxStretch 2 0 cxOrig).1 →
        q ∈ (apply_effects_to_stems cxPitch cxStretch 2 0 cxOrig).1 →
        p.2.length = q.2.length) := by
  intro h
  have h1 : (StemName.vocals, ([(1, 1), (1, 1)] : List Frame))
      ∈ (apply_effects_to_stems cxPitch cxStretch 2 0 cxOrig).1 := by
    rw [cx_result]
    exact List.mem_cons_self _ _
  have h2 : (StemName.drums, ([(0, 0)] : List Frame))
      ∈ (apply_effects_to_stems cxPitch cxStretch 2 0 cxOrig).1 := by
    rw [cx_result]
    exact List.mem_cons_of_mem _ (List.mem_cons_self _ _)
  have := h _ _ h1 h2
  simp at this

/-- C5 amended: `apply_effects_to_stems` transforms each stem
independently (pitch shift first when the shift is non-zero, then time
stretch when the speed is not 1), stores the transformed stems exactly as
the collaborator produced them — without any re-padding to a common frame
count — and resets the playback position to 0. -/
theorem claim_C5_amended :
    ∀ (pitchFn : ℤ → List Frame → List Frame)
      (stretchFn : ℚ → List Frame → List Frame) (speed : ℚ) (pitch : ℤ)
      (original : List (StemName × List Frame)),
      ((apply_effects_to_stems pitchFn stretchFn speed pitch original).2 = 0
      ∧ ((apply_effects_to_stems pitchFn stretchFn speed pitch original).1).map Prod.fst
          = original.map Prod.fst
      ∧ ∀ p, p ∈ original →
          (p.1, (if speed ≠ 1 then stretchFn speed else id)
              ((if pitch ≠ 0 then pitchFn pitch else id) p.2))
            ∈ (apply_effects_to_stems pitchFn stretchFn speed pitch original).1) := by
  intro pitchFn stretchFn speed pitch original
  refine ⟨rfl, ?_, ?_⟩
  · simp [apply_effects_to_stems, List.map_map, Function.comp]
  · intro p hp
    simp only [apply_effects_to_stems, List.mem_map]
    refine ⟨p, hp, ?_⟩
    split_ifs <;> simp

/-- Witness for C5 amended at a concrete input. -/
theorem claim_C5_amended_witness :
    ((apply_effects_to_stems cxPitch cxStretch 2 0 cxOrig).2 = 0
    ∧ ((apply_effects_to_stems cxPitch cxStretch 2 0 cxOrig).1).map Prod.fst
        = cxOrig.map Prod.fst
    ∧ ∀ p, p ∈ cxOrig →
        (p.1, (if (2 : ℚ) ≠ 1 then cxStretch 2 else id)
            ((if (0 : ℤ) ≠ 0 then cxPitch 0 else id) p.2))
          ∈ (apply_effects_to_stems cxPitch cxStretch 2 0 cxOrig).1) :=
  claim_C5_amended cxPitch cxStretch 2 0 cxOrig

/-- C8: seeking with a stem set loaded converts the seconds value to a
frame count and clamps it into `[0, frameCount - 1]`: the assigned
position is non-negative, at most `frameCount - 1`, equal to the converted
value whenever that value is already in range, `0` when the converted
value is negative, and the top of the range when the converted value
overshoots it. -/
theorem claim_C8_seek_clamp :
    ∀ (stems : List (StemName × List Frame)) (sample_rate : ℕ) (seconds : ℚ),
      stems ≠ [] →
      ((0 ≤ set_position_seconds stems sample_rate seconds)
      ∧ (set_position_seconds stems sample_rate seconds
          ≤ max 0 ((maxStemLen stems : ℤ) - 1))
      ∧ (0 ≤ py_int (seconds * (sample_rate : ℚ)) →
          py_int (seconds * (sample_rate : ℚ)) ≤ (maxStemLen stems : ℤ) - 1 →
          set_position_seconds stems sample_rate seconds
            = py_int (seconds * (sample_rate : ℚ)))
      ∧ (py_int (seconds * (sample_rate : ℚ)) < 0 →
          set_position_seconds stems sample_rate seconds = 0)
      ∧ ((maxStemLen stems : ℤ) - 1 < py_int (seconds * (sample_rate : ℚ)) →
          set_position_seconds stems sample_rate seconds
            = max 0 ((maxStemLen stems : ℤ) - 1))) := by
  intro stems sample_rate seconds h
  simp only [set_position_seconds, if_neg h]
  refine ⟨?_, ?_, ?_, ?_, ?_⟩ <;> intros <;> omega

/-- Witness for C8: seeking to 1 second in a 2-frame stem set at rate
44100 clamps to frame 1. -/
theorem claim_C8_witness :
    ((0 ≤ set_position_seconds demoStems 44100 1)
    ∧ (set_position_seconds demoStems 44100 1
        ≤ max 0 ((maxStemLen demoStems : ℤ) - 1))
    ∧ (0 ≤ py_int (1 * ((44100 : ℕ) : ℚ)) →
        py_int (1 * ((44100 : ℕ) : ℚ)) ≤ (maxStemLen demoStems : ℤ) - 1 →
        set_position_seconds demoStems 44100 1
          = py_int (1 * ((44100 : ℕ) : ℚ)))
    ∧ (py_int (1 * ((44100 : ℕ) : ℚ)) < 0 →
        set_position_seconds demoStems 44100 1 = 0)
    ∧ ((maxStemLen demoStems : ℤ) - 1 < py_int (1 * ((44100 : ℕ) : ℚ)) →
        set_position_seconds demoStems 44100 1
          = max 0 ((maxStemLen demoStems : ℤ) - 1))) :=
  claim_C8_seek_clamp demoStems 44100 1 (by simp [demoStems])

/-- C9 counterexample: seeking to -1 second with no stem set loaded
assigns the raw converted value -44100 to the playback position, so it is
not the case that the position is a non-negative integer after every
operation. -/
theorem claim_C9_counterexample :
    set_position_seconds [] 44100 (-1) = -44100
    ∧ set_position_seconds [] 44100 (-1) < 0 := by
  norm_num [set_position_seconds, py_int]

/-- C9 amended: the playback position is non-negative after every seek
performed while a stem set is loaded (and the callback-side position is a
natural number, so callback advance/wrap keeps it non-negative); but a
seek performed with no stem set loaded skips the clamp and can assign a
negative position. -/
theorem claim_C9_amended_nonneg :
    ∀ (stems : List (StemName × List Frame)) (sample_rate : ℕ) (seconds : ℚ),
      stems ≠ [] → 0 ≤ set_position_seconds stems sample_rate seconds := by
  intro stems sample_rate seconds h
  simp only [set_position_seconds, if_neg h]
  exact le_max_left _ _

/-- Witness for C9 amended: a seek to -5 seconds with stems loaded clamps
to a non-negative position. -/
theorem claim_C9_amended_witness :
    0 ≤ set_position_seconds demoStems 44100 (-5) :=
  claim_C9_amended_nonneg demoStems 44100 (-5) (by simp [demoStems])

/-- C10 counterexample: with the output device unavailable (stream
construction raises), `start_playback` from the stopped state returns
normally with the state unchanged — the failure is caught and logged
inside the method, not surfaced to the caller as an error. -/
theorem claim_C10_counterexample :
    start_playback (.error ()) ⟨false, none⟩ = .ok ⟨false, none⟩
    ∧ start_playback (.error ()) ⟨false, none⟩ ≠ .error () :=
  ⟨rfl, fun h => Except.noConfusion h⟩

/-- C10 amended: when the output device is unavailable, `start_playback`
catches the stream-open failure internally (only printing it): the caller
receives a normal return, `is_playing` stays `false`, and the stream field
is unchanged (no stream retained). -/
theorem claim_C10_amended :
    ∀ st : TransportState, st.is_playing = false →
      start_playback (.error ()) st = .ok st := by
  intro st h
  simp [start_playback, h]

/-- Witness for C10 amended at a concrete stopped state. -/
theorem claim_C10_amended_witness :
    start_playback (.error ()) ⟨false, none⟩ = .ok ⟨false, none⟩ :=
  claim_C10_amended ⟨false, none⟩ rfl

end DropBot
